import Mathlib

/-
  Verification of the traffic_simulation_system repository.

  Shallow embedding of the core model code:
    src/utils/enums.py, src/models/vehicle.py, src/models/traffic_light.py,
    src/models/traffic_manager.py.
  Python floats are modelled as rationals (ℚ); Python dict lookups that can
  raise KeyError are modelled as Option-valued functions; code that can raise
  is modelled with Except / Option.
-/

namespace TrafficSim

/-! ## Enumerations (src/utils/enums.py and src/models/vehicle.py)

`models/vehicle.py` redefines its own `VehicleType` enum (lines 5-9) with the
same four members and values as `utils/enums.py`; both are modelled by this
single inductive. -/

/-- `class VehicleType(enum.Enum): TRUCK = 1; CAR = 2; BUS = 3; MOTORCYCLE = 4` -/
inductive VehicleType where
  | TRUCK
  | CAR
  | BUS
  | MOTORCYCLE
deriving DecidableEq, Repr

/-- The `.value` attribute of the Python enum member (an int). -/
def VehicleType.value : VehicleType → Nat
  | .TRUCK => 1
  | .CAR => 2
  | .BUS => 3
  | .MOTORCYCLE => 4

/-- `class TrafficCondition(enum.Enum): LIGHT = 1; MODERATE = 2; HEAVY = 3; CONGESTED = 4` -/
inductive TrafficCondition where
  | LIGHT
  | MODERATE
  | HEAVY
  | CONGESTED
deriving DecidableEq, Repr

/-- Index of a condition in `list(TrafficCondition)` (enum declaration order),
as used by `TrafficManager.update_road_traffic`. -/
def TrafficCondition.idx : TrafficCondition → Nat
  | .LIGHT => 0
  | .MODERATE => 1
  | .HEAVY => 2
  | .CONGESTED => 3

/-- `conditions[current_index + 1]` — the next-higher congestion level. -/
def TrafficCondition.up : TrafficCondition → TrafficCondition
  | .LIGHT => .MODERATE
  | .MODERATE => .HEAVY
  | .HEAVY => .CONGESTED
  | .CONGESTED => .CONGESTED

/-- `conditions[current_index - 1]` — the next-lower congestion level. -/
def TrafficCondition.down : TrafficCondition → TrafficCondition
  | .LIGHT => .LIGHT
  | .MODERATE => .LIGHT
  | .HEAVY => .MODERATE
  | .CONGESTED => .HEAVY

/-! ## Vehicle speed-multiplier table (src/models/vehicle.py lines 12-24)

`Vehicle.SPEED_MULTIPLIERS` is a Python dict whose keys are `VehicleType` enum
MEMBERS.  `Vehicle.__init__` (line 33) indexes it with `vehicle_type.value`,
an int, while `TrafficManager.find_shortest_path` (line 181) indexes it with
the enum member itself.  A Python dict lookup with a key that is not present
raises KeyError; we model the dict as an Option-valued function over the sum
of the two key kinds that actually occur in the source. -/

/-- A key used to index `Vehicle.SPEED_MULTIPLIERS` somewhere in the source:
either a `VehicleType` enum member or a plain int. -/
inductive DictKey where
  | enumKey (v : VehicleType)
  | intKey (n : Nat)
deriving DecidableEq, Repr

/-- The fixed table value for each vehicle class (truck 0.6, car 1.0,
bus 0.8, motorcycle 1.5). -/
def speedTable : VehicleType → ℚ
  | .TRUCK => 3/5
  | .CAR => 1
  | .BUS => 4/5
  | .MOTORCYCLE => 3/2

/-- `Vehicle.SPEED_MULTIPLIERS` as a dict: only enum-member keys are present;
an int key is absent (lookup raises KeyError, modelled as `none`). -/
def SPEED_MULTIPLIERS : DictKey → Option ℚ
  | .enumKey v => some (speedTable v)
  | .intKey _ => none

/-- Line 33 of `vehicle.py`:
`self.speed_multiplier = self.SPEED_MULTIPLIERS[vehicle_type.value]`.
The result of the dict lookup performed by `Vehicle.__init__`. -/
def vehicle_init_speed_multiplier (vehicle_type : VehicleType) : Option ℚ :=
  SPEED_MULTIPLIERS (.intKey vehicle_type.value)

/-- `Vehicle.TRAFFIC_FACTOR` (vehicle.py lines 19-24): LIGHT 1.0, MODERATE 0.8,
HEAVY 0.5, CONGESTED 0.2.  (All keys are enum members and all lookups in the
source use enum members, so this dict is modelled as a total function.) -/
def TRAFFIC_FACTOR : TrafficCondition → ℚ
  | .LIGHT => 1
  | .MODERATE => 4/5
  | .HEAVY => 1/2
  | .CONGESTED => 1/5

/-! ## Trip records and the ledger's merge sort
(src/models/traffic_manager.py lines 277-309)

A trip record is a Python dict with eight keys; the sort reads only
`'travel_time'`.  We model the two fields that the sorting claims are about:
`travel_time` and an identifier that lets the relative order of records be
observed.  The remaining fields do not influence `merge_sort_by_time`. -/

structure Trip where
  vehicle_id : Nat
  travel_time : ℚ
deriving DecidableEq, Repr

/-- `TrafficManager.merge` (lines 294-309): merge two sorted lists; the
element from `left` is taken only when strictly smaller
(`left[i]['travel_time'] < right[j]['travel_time']`), otherwise the element
from `right` is taken.  The trailing `result.extend(left[i:])` /
`result.extend(right[j:])` appends whichever side is left over. -/
def merge : List Trip → List Trip → List Trip
  | [], right => right
  | left, [] => left
  | a :: left, b :: right =>
    if a.travel_time < b.travel_time then
      a :: merge left (b :: right)
    else
      b :: merge (a :: left) right
termination_by l r => l.length + r.length

/-- `TrafficManager.merge_sort_by_time` (lines 277-292): split at
`len(trips) // 2`, recurse, merge. -/
def merge_sort_by_time (trips : List Trip) : List Trip :=
  if trips.length ≤ 1 then trips
  else
    let mid := trips.length / 2
    merge (merge_sort_by_time (trips.take mid)) (merge_sort_by_time (trips.drop mid))
termination_by trips.length
decreasing_by
  · simp only [List.length_take]
    omega
  · simp only [List.length_drop]
    omega

/-! ## Traffic light timing (src/models/traffic_light.py) -/

/-- The junction type strings used by `TrafficLight.optimize_green_time`;
`other` stands for any string not in the `junction_multipliers` dict
(the `.get(self.junction_type, 1.0)` default). -/
inductive JunctionType where
  | highway_intersection
  | city_intersection
  | rural_intersection
  | smart_intersection
  | other
deriving DecidableEq, Repr

/-- `junction_multipliers` dict (traffic_light.py lines 57-63) with the
`.get(..., 1.0)` default for unknown junction types. -/
def junction_multiplier : JunctionType → ℚ
  | .highway_intersection => 7/10
  | .city_intersection => 1
  | .rural_intersection => 13/10
  | .smart_intersection => 3/2
  | .other => 1

/-- Python `int()` applied to a float: truncation toward zero. -/
def pyInt (q : ℚ) : ℤ :=
  if 0 ≤ q then ⌊q⌋ else -⌊-q⌋

/-- `TrafficLight.optimize_green_time` (lines 55-64):
`int(max(10, min(traffic_density * multiplier // 2, 60)))`.
Python `//` on floats is floor division, so the inner value is the integer
⌊density·multiplier/2⌋; `min`/`max` with the int literals and the final
`int()` leave an integer in place. -/
def optimize_green_time (traffic_density : ℚ) (jt : JunctionType) : ℤ :=
  max 10 (min (⌊traffic_density * junction_multiplier jt / 2⌋) 60)

/-- `avg_traffic = sum(traffic) / max(1, len(traffic))` (line 80). -/
def avgTraffic (traffic : List ℚ) : ℚ :=
  traffic.sum / (max 1 traffic.length : ℚ)

/-- `state = min(int(avg_traffic * states), states - 1)` with `states = 5`
(line 81); `int()` truncates toward zero. -/
def discState (traffic : List ℚ) : ℤ :=
  min (pyInt (avgTraffic traffic * 5)) 4

/-- Number of transitions from discretized level `a` to level `b` in the
consecutive pairs of the state sequence (lines 85-88). -/
def transCount (sts : List ℤ) (a b : ℤ) : ℕ :=
  (sts.zip sts.tail).countP (fun p => decide (p.1 = a ∧ p.2 = b))

/-- Row `a` of the transition matrix after normalization (lines 91-94):
divided by the row sum when it is positive, otherwise left as the raw
(all-zero) counts. -/
def transRow (sts : List ℤ) (a : ℤ) (b : ℕ) : ℚ :=
  let rowSum : ℚ := ((List.range 5).map (fun j => (transCount sts a j : ℚ))).sum
  if 0 < rowSum then (transCount sts a b : ℚ) / rowSum else (transCount sts a b : ℚ)

/-- `np.argmax` over the five entries of a row: index of the first maximal
entry (ties go to the lowest index). -/
def argmax5 (f : ℕ → ℚ) : ℕ :=
  (List.range 5).foldl (fun best j => if f best < f j then j else best) 0

/-- `TrafficLight.optimize_signals_dp` (lines 66-106): with fewer than two
history entries return the default 30; otherwise discretize the history into
levels, build the transition-frequency matrix, normalize, take the most
recent level, predict the next level by `argmax`, and map it onto
`int(15 + predicted/4 * 45)`. -/
def optimize_signals_dp (traffic_history : List (List ℚ)) : ℤ :=
  if traffic_history.length < 2 then 30
  else
    let sts := traffic_history.map discState
    let cur := sts.getLastD 0
    let predicted : ℕ := argmax5 (transRow sts cur)
    pyInt (15 + (predicted : ℚ) / 4 * 45)

/-- The yellow-phase duration: `yield self.env.timeout(5)` (line 48). -/
def yellowTime : ℤ := 5

/-- `red_time = self.base_cycle_time - green_time - 5` (line 51): the red
duration actually computed by `TrafficLight.run`, with no lower bound. -/
def redTime (base_cycle_time green_time : ℤ) : ℤ :=
  base_cycle_time - green_time - 5

/-- Modelled from the spec (for comparison with `redTime`): the claimed red
duration, "`base_cycle_time - green_time - 5`, treated as 0 when that
expression is negative". -/
def redTimeClaimed (base_cycle_time green_time : ℤ) : ℤ :=
  max 0 (base_cycle_time - green_time - 5)

/-! ## Congestion updates (src/models/traffic_manager.py lines 125-159) -/

/-- `TrafficManager.update_road_traffic` (lines 125-142) acting on one edge's
condition.  `change_factor` is the signed perturbation; `r` is the value
drawn by `random.random()`.  A positive factor moves the level one step up
with probability `change_factor` unless already at the top; a negative
factor moves it one step down with probability `abs(change_factor)` unless
already at the bottom. -/
def update_road_traffic (c : TrafficCondition) (change_factor r : ℚ) : TrafficCondition :=
  if 0 < change_factor then
    if c.idx < 3 then (if r < change_factor then c.up else c) else c
  else if change_factor < 0 then
    if 0 < c.idx then (if r < |change_factor| then c.down else c) else c
  else c

/-- A road network, for the congestion-update tick, as its edge list:
each directed edge `(source, target)` keyed pair carries its mutable
`traffic_condition`. -/
abbrev CondNet : Type := List ((Nat × Nat) × TrafficCondition)

/-- Mutating `edge_data['traffic_condition']` for the edge with key `e`:
every entry whose key equals `e` gets the update applied. -/
def updateEdge (net : CondNet) (e : Nat × Nat) (change_factor r : ℚ) : CondNet :=
  net.map (fun p => if p.1 = e then (p.1, update_road_traffic p.2 change_factor r) else p)

/-- One tick of `TrafficManager.update_traffic_conditions` (lines 144-159):
the sampled edges are updated in order, each with its own
`random.uniform(-0.3, 0.3)` change factor and its own `random.random()`
draw (modelled by the `rands` list, zipped against the sample). -/
def update_traffic_conditions_tick (net : CondNet) (sample : List (Nat × Nat))
    (rands : List (ℚ × ℚ)) : CondNet :=
  (sample.zip rands).foldl (fun acc p => updateEdge acc p.1 p.2.1 p.2.2) net

/-- The number of edges whose congestion level differs between two
equally-shaped networks (position-wise comparison). -/
def changedCount (net net' : CondNet) : ℕ :=
  (net.zip net').countP (fun p => decide (p.1.2 ≠ p.2.2))

/-! ## The road network and Dijkstra routing
(src/models/traffic_manager.py lines 22-101 and 173-216)

Locations are modelled as natural numbers (the source uses city-name
strings; only their identity and a fixed total order — used by `heapq` for
tie-breaking on equal costs — matter to the algorithm).  A directed graph is
its edge list; `networkx.DiGraph` keeps at most one edge per ordered pair. -/

structure EdgeData where
  distance : ℚ
  max_speed : ℚ
  road_type : String
  traffic_condition : TrafficCondition
deriving DecidableEq, Repr

structure Graph where
  edges : List (Nat × Nat × EdgeData)
deriving DecidableEq, Repr

/-- `self.road_network.edges[u, v]`: the data of the directed edge `(u, v)`,
`none` when the edge is absent (Python raises KeyError there). -/
def edgeData? (g : Graph) (u v : Nat) : Option EdgeData :=
  (g.edges.find? (fun e => decide (e.1 = u ∧ e.2.1 = v))).map (fun e => e.2.2)

/-- The edge cost used by the router (line 210):
`(distance / max_speed) / (vehicle_speed_multiplier * traffic_factor)`.
The multiplier lookup `Vehicle.SPEED_MULTIPLIERS[vehicle_type]` uses the enum
member as key and succeeds (see `SPEED_MULTIPLIERS`). -/
def travelTime (vt : VehicleType) (d : EdgeData) : ℚ :=
  (d.distance / d.max_speed) / (speedTable vt * TRAFFIC_FACTOR d.traffic_condition)

/-- A priority-queue entry `(cost, node, path)` as pushed on line 213. -/
abbrev Entry := ℚ × Nat × List Nat

/-- Python `<` on lists of nodes (lexicographic, shorter-is-smaller on equal
prefixes); the third component of the heapq tuple comparison. -/
def listLtB : List Nat → List Nat → Bool
  | [], [] => false
  | [], _ :: _ => true
  | _ :: _, [] => false
  | a :: l, b :: r => if a < b then true else if b < a then false else listLtB l r

/-- Python `<` on the `(cost, node, path)` tuples that `heapq` orders. -/
def entryLtB (a b : Entry) : Bool :=
  if a.1 < b.1 then true
  else if b.1 < a.1 then false
  else if a.2.1 < b.2.1 then true
  else if b.2.1 < a.2.1 then false
  else listLtB a.2.2 b.2.2

/-- `heapq.heappop`: remove and return the least entry in tuple order (the
earliest such entry when several are equal).  The queue is modelled as a
plain list; `heapq.heappush` is modelled as appending. -/
def popMin : List Entry → Option (Entry × List Entry)
  | [] => none
  | e :: es =>
    match popMin es with
    | none => some (e, [])
    | some (m, rest) => if entryLtB m e then some (m, e :: rest) else some (e, es)

/-- The edges leaving `u`; iterating them yields exactly the
`for neighbor in self.road_network.neighbors(node)` loop together with the
`edges[node, neighbor]` lookup of lines 203-206. -/
def edgesFrom (g : Graph) (u : Nat) : List (Nat × Nat × EdgeData) :=
  g.edges.filter (fun e => decide (e.1 = u))

/-- The main loop of `TrafficManager.find_shortest_path` (lines 184-216),
with explicit fuel.  `none` = fuel exhausted (proved unreachable below for
`fuel > potential`); `some none` = the queue emptied, Python `return None`;
`some (some p)` = Python `return new_path`.
Each iteration pops the least entry; a visited node is skipped (line 190);
reaching the goal returns `path + [node]` (line 197); otherwise the node is
added to `visited` (line 200) and every unvisited neighbor is pushed with
the accumulated cost (lines 203-213). -/
def dijkstraLoop (g : Graph) (goal : Nat) (vt : VehicleType) :
    Nat → List Entry → List Nat → Option (Option (List Nat))
  | 0, _, _ => none
  | fuel + 1, pq, visited =>
    match popMin pq with
    | none => some none
    | some (e, rest) =>
      if e.2.1 ∈ visited then dijkstraLoop g goal vt fuel rest visited
      else
        let newPath := e.2.2 ++ [e.2.1]
        if e.2.1 = goal then some (some newPath)
        else
          let visited' := e.2.1 :: visited
          let pushes := (edgesFrom g e.2.1).filterMap (fun ed =>
            if ed.2.1 ∈ visited' then none
            else some (e.1 + travelTime vt ed.2.2, ed.2.1, newPath))
          dijkstraLoop g goal vt fuel (rest ++ pushes) visited'

/-- The sources of the graph (nodes with at least one outgoing edge). -/
def sourceFinset (g : Graph) : Finset Nat :=
  (g.edges.map (fun e => e.1)).toFinset

/-- Out-degree of a node (edges counted with multiplicity). -/
def outdeg (g : Graph) (v : Nat) : ℕ :=
  (edgesFrom g v).length

/-- Fuel that always suffices for `dijkstraLoop` started on `[(0, start, [])]`
with no visited nodes (proved below). -/
def fuelBound (g : Graph) : ℕ :=
  2 + ∑ v ∈ sourceFinset g, (outdeg g v + 1)

/-- `TrafficManager.find_shortest_path` (lines 173-216): `start == goal`
returns `[start]` immediately (line 176); otherwise Dijkstra's loop runs on
the initial queue `[(0, start, [])]` (line 179).  The fuel-exhaustion branch
is unreachable (`dijkstraLoop_isSome` below), so `none` here means exactly
the Python `return None` of line 216. -/
def find_shortest_path (g : Graph) (start goal : Nat) (vt : VehicleType) :
    Option (List Nat) :=
  if start = goal then some [start]
  else
    match dijkstraLoop g goal vt (fuelBound g) [(0, start, [])] [] with
    | some r => r
    | none => none

/-- Reachability along directed edges of the network. -/
def Reach (g : Graph) : Nat → Nat → Prop :=
  Relation.ReflTransGen (fun u v => (edgeData? g u v).isSome)

/-! ## Vehicle trip lifecycle (src/models/vehicle.py lines 41-96) -/

/-- The one Python exception kind relevant to the planning step. -/
inductive PyError where
  | TypeError
deriving DecidableEq, Repr

/-- `Vehicle.plan_route` (lines 41-44): assigns
`self.route = find_shortest_path(start, destination, vehicle_type)` and then
evaluates `' -> '.join(self.route)` inside the print.  When the router
returned `None`, `str.join(None)` raises TypeError; otherwise the joined
route string is printed and the route stands. -/
def plan_route (g : Graph) (start destination : Nat) (vt : VehicleType) :
    Except PyError (List Nat) :=
  match find_shortest_path g start destination vt with
  | none => .error .TypeError
  | some r => .ok r

/-- Sum of `self.TRAFFIC_FACTOR[traffic]` over the consecutive edges of the
remaining route (vehicle.py lines 54-58).  An absent edge would raise
KeyError in Python; it is modelled with factor 0 and never taken on the
routes this development evaluates, whose edges all exist. -/
def routeCongestionSum (g : Graph) (remaining : List Nat) : ℚ :=
  ((remaining.zip remaining.tail).map (fun p =>
    ((edgeData? g p.1 p.2).map (fun d => TRAFFIC_FACTOR d.traffic_condition)).getD 0)).sum

/-- `Vehicle.consider_rerouting` (lines 46-75) as a pure function of the
current network and vehicle position: returns `some newRoute` when the
method returns `True` having set `self.route = self.route[:current_idx] +
new_route`, and `none` when it returns `False` leaving the route unchanged.
`route.index(current_node)` is `indexOf`; `self.route[-2]` is the element at
index `length - 2` (`drive` only calls this with a route of length ≥ 2);
the `new_remaining != old_remaining` comparison of `' -> '`-joined strings
is list inequality. -/
def consider_rerouting (g : Graph) (vt : VehicleType) (route : List Nat)
    (current_node destination : Nat) : Option (List Nat) :=
  if current_node ≠ destination ∧ some current_node ≠ route.get? (route.length - 2) then
    let current_idx := route.indexOf current_node
    let remaining := route.drop current_idx
    let congestion_level := routeCongestionSum g remaining
    let average_congestion : ℚ :=
      if 1 < remaining.length then congestion_level / ((remaining.length : ℚ) - 1) else 0
    if average_congestion < 7/10 then
      match find_shortest_path g current_node destination vt with
      | none => none
      | some new_route =>
        if 1 < new_route.length ∧ new_route ≠ remaining then
          some (route.take current_idx ++ new_route)
        else none
    else none
  else none

/-- The state of a driving vehicle: endpoints, class, current `self.route`,
and the traversal loop index `i` of `Vehicle.drive` (line 85). -/
structure VehicleState where
  start : Nat
  destination : Nat
  vehicle_type : VehicleType
  route : List Nat
  idx : Nat
deriving DecidableEq, Repr

/-- What `Vehicle.drive` does when the reroute check fires and succeeds
(lines 92-95 together with the restarted call's lines 78-85):
`consider_rerouting` sets `self.route` to the spliced route (line 73), then
`drive` returns `self.env.process(self.drive())` (line 95); the restarted
`drive` immediately calls `plan_route` (line 79), overwriting `self.route`
with a fresh shortest path computed from the ORIGINAL `self.start`, and its
traversal loop restarts at index 0 (line 85).  `none` when the reroute check
declines, or when the replanning router call returns `None` (in which case
`plan_route` raises, see `plan_route`). -/
def reroute_and_restart (g : Graph) (v : VehicleState) (current_node : Nat) :
    Option VehicleState :=
  match consider_rerouting g v.vehicle_type v.route current_node v.destination with
  | none => none
  | some spliced =>
    let v1 := { v with route := spliced }
    match find_shortest_path g v1.start v1.destination v1.vehicle_type with
    | none => none
    | some fresh => some { v1 with route := fresh, idx := 0 }

/-- The node the traversal loop of `Vehicle.drive` works on next:
`self.route[i]` (line 86). -/
def VehicleState.currentNode (v : VehicleState) : Option Nat :=
  v.route.get? v.idx

/-! ## Auxiliary predicates used by the theorems -/

/-- Non-decreasing travel time, the sort order claimed for the ledger. -/
def travelTimeLE (a b : Trip) : Prop :=
  a.travel_time ≤ b.travel_time

/-- One application of the congestion update rule moves the level at most one
step: the result is the old level, its successor, or its predecessor. -/
def oneStep (a b : TrafficCondition) : Prop :=
  b = a ∨ b = a.up ∨ b = a.down

/-- Relation between an edge entry before and after a congestion-updater
tick with sampled edge set `sample`: the key is unchanged, and the condition
either is unchanged or (for a sampled key) moved by one application of the
update rule. -/
def tickRel (sample : List (Nat × Nat)) (p q : (Nat × Nat) × TrafficCondition) : Prop :=
  p.1 = q.1 ∧ (p.2 = q.2 ∨ (p.1 ∈ sample ∧ oneStep p.2 q.2))

/-- A well-formed routing result: non-empty, begins at `start`, ends at
`goal`, has pairwise-distinct nodes (so in particular pairwise-distinct
interior nodes), and every consecutive pair is a directed edge of the
network. -/
def WFPath (g : Graph) (start goal : Nat) (p : List Nat) : Prop :=
  p ≠ [] ∧ p.head? = some start ∧ p.getLast? = some goal ∧ p.Nodup ∧
    List.Chain' (fun u v => (edgeData? g u v).isSome) p

/-- Loop invariant of `dijkstraLoop` for a queue entry `(cost, node, path)`:
`path ++ [node]` starts at `start`, has no duplicates, follows directed
edges, and all of `path`'s nodes are already visited. -/
def EntryInv (g : Graph) (start : Nat) (visited : List Nat) (e : Entry) : Prop :=
  (e.2.2 ++ [e.2.1]).head? = some start ∧
  (e.2.2 ++ [e.2.1]).Nodup ∧
  List.Chain' (fun u v => (edgeData? g u v).isSome) (e.2.2 ++ [e.2.1]) ∧
  ∀ x ∈ e.2.2, x ∈ visited

/-- Termination measure for `dijkstraLoop`: queue length plus, for every
unvisited source, its out-degree plus one. -/
def potential (g : Graph) (pq : List Entry) (visited : List Nat) : ℕ :=
  pq.length + ∑ v ∈ sourceFinset g \ visited.toFinset, (outdeg g v + 1)

/-! ## Concrete instances used by counterexamples and witnesses -/

/-- An edge of 100 km at 100 km/h (so base travel time 1) with the given
congestion, as concrete test data. -/
def testEdge (u v : Nat) (c : TrafficCondition) : Nat × Nat × EdgeData :=
  (u, v, ⟨100, 100, "highway", c⟩)

/-- Network for the reroute scenario: planned route 0→1→2→3 has degraded to
HEAVY on its remaining edges, while the detour 1→4→3 is LIGHT. -/
def gReroute : Graph :=
  ⟨[testEdge 0 1 .LIGHT, testEdge 1 2 .HEAVY, testEdge 2 3 .HEAVY,
    testEdge 1 4 .LIGHT, testEdge 4 3 .LIGHT]⟩

/-- A network in which node 1 has no incoming edges: unreachable from 0. -/
def gNoRoute : Graph := ⟨[testEdge 0 2 .LIGHT]⟩

/-- A network with no edges at all. -/
def gEmpty : Graph := ⟨[]⟩

/-- A single directed edge 0 → 1. -/
def gOneEdge : Graph := ⟨[testEdge 0 1 .LIGHT]⟩

/-- A five-edge condition network for the congestion-tick witness. -/
def netFive : CondNet :=
  [((0, 1), .LIGHT), ((1, 2), .HEAVY), ((2, 3), .MODERATE),
   ((3, 4), .LIGHT), ((4, 5), .CONGESTED)]

/-! # Theorems -/

/-! ## C1 — speed-multiplier lookup in the constructor and the router -/

/-- C1 (code bug): constructing a `Vehicle` never succeeds.  Line 33 of
`vehicle.py` indexes `SPEED_MULTIPLIERS` with `vehicle_type.value` — an int —
but the dict's keys are the enum members, so for every vehicle class the
lookup finds no key (Python: KeyError) instead of producing the table value.
The router's lookup (`traffic_manager.py` line 181), which uses the enum
member itself, does succeed and yields the fixed table value claimed
(truck 0.6, car 1.0, bus 0.8, motorcycle 1.5). -/
theorem C1_init_lookup_fails_router_lookup_succeeds :
    ∀ vt : VehicleType,
      vehicle_init_speed_multiplier vt = none ∧
      SPEED_MULTIPLIERS (.enumKey vt) = some (speedTable vt) ∧
      speedTable .TRUCK = 3/5 ∧ speedTable .CAR = 1 ∧
      speedTable .BUS = 4/5 ∧ speedTable .MOTORCYCLE = 3/2 := by
  intro vt
  refine ⟨?_, rfl, rfl, rfl, rfl, rfl⟩
  cases vt <;> rfl

/-! ## C5 — yellow and red phase durations -/

/-- C5 counterexample: the claim says the red duration is
`base_cycle_time - green_time - 5` "treated as 0 when that expression is
negative".  `TrafficLight.run` line 51 computes the raw difference with no
floor: with the constructor-default `cycle_time=60` and a green time of 60
(attainable, e.g. `optimize_green_time 120 city = 60`), the computed red
duration is -5, not the claimed 0. -/
theorem C5_counterexample :
    redTime 60 60 = -5 ∧ redTimeClaimed 60 60 = 0 ∧
    redTime 60 60 ≠ redTimeClaimed 60 60 ∧
    optimize_green_time 120 .city_intersection = 60 := by
  refine ⟨rfl, rfl, by decide, ?_⟩
  unfold optimize_green_time junction_multiplier
  norm_num

/-! ## C6 — green-time bounds (shared helper lemmas, also used by C5) -/

lemma optimize_green_time_bounds (d : ℚ) (jt : JunctionType) :
    10 ≤ optimize_green_time d jt ∧ optimize_green_time d jt ≤ 60 := by
  unfold optimize_green_time
  exact ⟨le_max_left _ _, max_le (by norm_num) (min_le_right _ _)⟩

lemma argmax5_le (f : ℕ → ℚ) : argmax5 f ≤ 4 := by
  have h : ∀ (l : List ℕ) (b : ℕ), (∀ x ∈ l, x ≤ 4) → b ≤ 4 →
      (l.foldl (fun best j => if f best < f j then j else best) b) ≤ 4 := by
    intro l
    induction l with
    | nil => intro b _ hb; simpa using hb
    | cons x xs ih =>
      intro b hl hb
      simp only [List.foldl_cons]
      refine ih _ (fun y hy => hl y (List.mem_cons_of_mem _ hy)) ?_
      by_cases hfx : f b < f x
      · simpa [hfx] using hl x (List.mem_cons_self _ _)
      · simpa [hfx] using hb
  refine h _ _ (fun x hx => ?_) (by norm_num)
  have := List.mem_range.mp hx
  omega

lemma pyInt_green_bounds (s : ℕ) (hle : s ≤ 4) :
    10 ≤ pyInt (15 + (s : ℚ) / 4 * 45) ∧ pyInt (15 + (s : ℚ) / 4 * 45) ≤ 60 := by
  have hsq : ((s : ℚ)) ≤ 4 := by exact_mod_cast hle
  have hnn : (0:ℚ) ≤ (s : ℚ) / 4 * 45 := by positivity
  have h0 : (0:ℚ) ≤ 15 + (s : ℚ) / 4 * 45 := by linarith
  rw [pyInt, if_pos h0]
  constructor
  · refine Int.le_floor.mpr ?_
    push_cast
    linarith
  · have hq : 15 + (s : ℚ) / 4 * 45 ≤ 60 := by linarith
    calc ⌊15 + (s : ℚ) / 4 * 45⌋ ≤ ⌊(60:ℚ)⌋ := Int.floor_le_floor hq
      _ = 60 := by norm_num

lemma optimize_signals_dp_bounds (hist : List (List ℚ)) :
    10 ≤ optimize_signals_dp hist ∧ optimize_signals_dp hist ≤ 60 := by
  unfold optimize_signals_dp
  split
  · norm_num
  · exact pyInt_green_bounds _ (argmax5_le _)

/-- C6 (confirmed): for every traffic-density input and junction type the
basic green time `int(max(10, min(density * multiplier // 2, 60)))` lies in
[10, 60]; the adaptive Markov path's green time lies in [10, 60] for every
history; and the mapping `int(15 + level/4 * 45)` lies in [10, 60] for every
level 0..4. -/
theorem C6_green_time_in_bounds :
    (∀ (d : ℚ) (jt : JunctionType),
      10 ≤ optimize_green_time d jt ∧ optimize_green_time d jt ≤ 60) ∧
    (∀ hist : List (List ℚ),
      10 ≤ optimize_signals_dp hist ∧ optimize_signals_dp hist ≤ 60) ∧
    (∀ lvl : Fin 5,
      10 ≤ pyInt (15 + ((lvl : ℕ) : ℚ) / 4 * 45) ∧
      pyInt (15 + ((lvl : ℕ) : ℚ) / 4 * 45) ≤ 60) :=
  ⟨optimize_green_time_bounds, optimize_signals_dp_bounds,
   fun lvl => pyInt_green_bounds lvl (by omega)⟩

/-- C5 amended: the YELLOW phase is exactly 5 time-units and
GREEN+YELLOW+RED always sum exactly to `base_cycle_time`, but the RED phase
is the raw `base_cycle_time - green_time - 5` with NO floor at 0 (`run`
passes the raw value, negative or not, to the timeout).  In the shipped
configuration every light has `base_cycle_time = 90` and both green-time
computations stay within [10, 60], so RED ≥ 25 and the negative edge case
never arises there. -/
theorem C5_amended_durations :
    ∀ base green : ℤ,
      yellowTime = 5 ∧
      redTime base green = base - green - 5 ∧
      green + yellowTime + redTime base green = base ∧
      (∀ (d : ℚ) (jt : JunctionType), 25 ≤ redTime 90 (optimize_green_time d jt)) ∧
      (∀ hist : List (List ℚ), 25 ≤ redTime 90 (optimize_signals_dp hist)) := by
  intro base green
  refine ⟨rfl, rfl, by unfold yellowTime redTime; ring, ?_, ?_⟩
  · intro d jt
    have h := (optimize_green_time_bounds d jt).2
    unfold redTime
    omega
  · intro hist
    have h := (optimize_signals_dp_bounds hist).2
    unfold redTime
    omega

/-! ## C3 — the ledger's merge sort -/

lemma merge_perm : ∀ l r : List Trip, (merge l r).Perm (l ++ r) := by
  intro l r
  induction l, r using merge.induct with
  | case1 right => simp [merge]
  | case2 left h => cases left with
    | nil => simp [merge]
    | cons a l => simp [merge]
  | case3 a left b right hab ih =>
    rw [merge, if_pos hab]
    simpa using ih.cons a
  | case4 a left b right hab ih =>
    rw [merge, if_neg hab]
    exact (ih.cons b).trans (List.perm_middle).symm

lemma mem_merge {x : Trip} {l r : List Trip} : x ∈ merge l r ↔ x ∈ l ∨ x ∈ r := by
  rw [(merge_perm l r).mem_iff]
  exact List.mem_append

lemma merge_sorted : ∀ l r : List Trip,
    l.Sorted travelTimeLE → r.Sorted travelTimeLE →
    (merge l r).Sorted travelTimeLE := by
  intro l r
  induction l, r using merge.induct with
  | case1 right => intro _ hr; simpa [merge] using hr
  | case2 left h =>
    intro hl _
    cases left with
    | nil => simp [merge]
    | cons a l => simpa [merge] using hl
  | case3 a left b right hab ih =>
    intro hl hr
    rw [merge, if_pos hab]
    rw [List.sorted_cons] at hl ⊢
    refine ⟨?_, ih hl.2 hr⟩
    intro y hy
    rcases mem_merge.mp hy with hyl | hyr
    · exact hl.1 y hyl
    · rcases List.mem_cons.mp hyr with rfl | hyr
      · exact le_of_lt hab
      · rw [List.sorted_cons] at hr
        exact le_of_lt (lt_of_lt_of_le hab (hr.1 y hyr))
  | case4 a left b right hab ih =>
    intro hl hr
    rw [merge, if_neg hab]
    rw [List.sorted_cons] at hr ⊢
    refine ⟨?_, ih hl hr.2⟩
    intro y hy
    have hba : travelTimeLE b a := le_of_not_lt hab
    rcases mem_merge.mp hy with hyl | hyr
    · rcases List.mem_cons.mp hyl with rfl | hyl
      · exact hba
      · rw [List.sorted_cons] at hl
        exact le_trans hba (hl.1 y hyl)
    · exact hr.1 y hyr

lemma merge_sort_perm : ∀ l : List Trip, (merge_sort_by_time l).Perm l := by
  intro l
  rw [merge_sort_by_time]
  split_ifs with h
  · exact List.Perm.refl l
  · have h1 := merge_sort_perm (l.take (l.length / 2))
    have h2 := merge_sort_perm (l.drop (l.length / 2))
    have h3 : l.take (l.length / 2) ++ l.drop (l.length / 2) = l :=
      List.take_append_drop _ l
    have h4 := (merge_perm _ _).trans (h1.append h2)
    rwa [h3] at h4
termination_by l => l.length
decreasing_by
  · simp only [List.length_take]
    omega
  · simp only [List.length_drop]
    omega

lemma merge_sort_sorted : ∀ l : List Trip,
    (merge_sort_by_time l).Sorted travelTimeLE := by
  intro l
  rw [merge_sort_by_time]
  split_ifs with h
  · rcases l with _ | ⟨a, _ | ⟨b, t⟩⟩
    · simp
    · simp [List.sorted_singleton]
    · simp at h
  · exact merge_sorted _ _ (merge_sort_sorted (l.take (l.length / 2)))
      (merge_sort_sorted (l.drop (l.length / 2)))
termination_by l => l.length
decreasing_by
  · simp only [List.length_take]
    omega
  · simp only [List.length_drop]
    omega

/-- C3 counterexample: the sort is NOT stable.  The two records below have
equal travel_time and are inserted in id-order 0, 1; a stable sort returns
them unchanged, but `merge` takes the RIGHT element on ties
(`left[i]['travel_time'] < right[j]['travel_time']` is false for equal
times), so the ledger's sort returns them in the reversed order 1, 0. -/
theorem C3_counterexample_not_stable :
    merge_sort_by_time [⟨0, 1⟩, ⟨1, 1⟩] = [⟨1, 1⟩, ⟨0, 1⟩] ∧
    ([⟨1, 1⟩, ⟨0, 1⟩] : List Trip) ≠ [⟨0, 1⟩, ⟨1, 1⟩] := by
  constructor
  · simp [merge_sort_by_time, merge]
  · decide

/-- C3 amended: for every list of trip records the ledger's merge sort
returns a permutation of the records in non-decreasing order of
travel_time; it is, however, NOT stable — on equal travel_time the merge
emits the right-hand (later-inserted) record first
(`C3_counterexample_not_stable`). -/
theorem C3_amended_sorts_but_unstable :
    ∀ trips : List Trip,
      (merge_sort_by_time trips).Perm trips ∧
      (merge_sort_by_time trips).Sorted travelTimeLE :=
  fun trips => ⟨merge_sort_perm trips, merge_sort_sorted trips⟩

/-! ## C7 — congestion updater tick bounds -/

lemma update_road_traffic_oneStep (c : TrafficCondition) (f r : ℚ) :
    oneStep c (update_road_traffic c f r) := by
  unfold update_road_traffic oneStep
  split_ifs <;> simp

lemma oneStep_idx_dist {a b : TrafficCondition} (h : oneStep a b) :
    ((b.idx : ℤ) - (a.idx : ℤ)).natAbs ≤ 1 := by
  rcases h with rfl | rfl | rfl
  · simp
  · cases a <;> decide
  · cases a <;> decide

lemma updateEdge_rel (net : CondNet) (e : Nat × Nat) (f r : ℚ) :
    List.Forall₂
      (fun p q => p.1 = q.1 ∧ (p.2 = q.2 ∨ (p.1 = e ∧ oneStep p.2 q.2)))
      net (updateEdge net e f r) := by
  unfold updateEdge
  rw [List.forall₂_map_right_iff]
  rw [List.forall₂_same]
  intro p _
  by_cases hp : p.1 = e
  · rw [if_pos hp]
    exact ⟨rfl, Or.inr ⟨hp, update_road_traffic_oneStep _ _ _⟩⟩
  · rw [if_neg hp]
    exact ⟨rfl, Or.inl rfl⟩

lemma tickRel_compose {e : Nat × Nat} {rest : List (Nat × Nat)} (hnotin : e ∉ rest) :
    ∀ {a b c : CondNet},
      List.Forall₂
        (fun p q => p.1 = q.1 ∧ (p.2 = q.2 ∨ (p.1 = e ∧ oneStep p.2 q.2))) a b →
      List.Forall₂ (tickRel rest) b c →
      List.Forall₂ (tickRel (e :: rest)) a c := by
  intro a b c hab hbc
  induction hab generalizing c with
  | nil =>
    cases hbc
    exact List.Forall₂.nil
  | cons hpq hab ih =>
    cases hbc with
    | cons hqs hbc =>
      refine List.Forall₂.cons ?_ (ih hbc)
      obtain ⟨hk1, h1⟩ := hpq
      obtain ⟨hk2, h2⟩ := hqs
      refine ⟨hk1.trans hk2, ?_⟩
      rcases h1 with h1 | ⟨hke, hs1⟩
      · rcases h2 with h2 | ⟨hkr, hs2⟩
        · exact Or.inl (h1.trans h2)
        · exact Or.inr ⟨by rw [hk1]; exact List.mem_cons_of_mem _ hkr, by rw [h1]; exact hs2⟩
      · rcases h2 with h2 | ⟨hkr, hs2⟩
        · exact Or.inr ⟨by rw [hke]; exact List.mem_cons_self _ _, by rw [← h2]; exact hs1⟩
        · exact absurd (by rw [← hk1, hke] at hkr; exact hkr) hnotin

lemma tick_rel : ∀ (sample : List (Nat × Nat)) (rands : List (ℚ × ℚ)) (net : CondNet),
    sample.Nodup →
    List.Forall₂ (tickRel sample) net (update_traffic_conditions_tick net sample rands) := by
  intro sample
  induction sample with
  | nil =>
    intro rands net _
    unfold update_traffic_conditions_tick
    simp only [List.zip_nil_left, List.foldl_nil]
    rw [List.forall₂_same]
    exact fun p _ => ⟨rfl, Or.inl rfl⟩
  | cons e rest ih =>
    intro rands net hnd
    cases rands with
    | nil =>
      unfold update_traffic_conditions_tick
      simp only [List.zip_nil_right, List.foldl_nil]
      rw [List.forall₂_same]
      exact fun p _ => ⟨rfl, Or.inl rfl⟩
    | cons fr rands =>
      have hstep : update_traffic_conditions_tick net (e :: rest) (fr :: rands) =
          update_traffic_conditions_tick (updateEdge net e fr.1 fr.2) rest rands := by
        unfold update_traffic_conditions_tick
        simp [List.zip_cons_cons]
      rw [hstep]
      have hnotin : e ∉ rest := (List.nodup_cons.mp hnd).1
      exact tickRel_compose hnotin (updateEdge_rel net e fr.1 fr.2)
        (ih rands _ (List.nodup_cons.mp hnd).2)

lemma changedCount_le_filter {sample : List (Nat × Nat)} :
    ∀ {net net' : CondNet}, List.Forall₂ (tickRel sample) net net' →
    changedCount net net' ≤
      ((net.map Prod.fst).filter (fun k => decide (k ∈ sample))).length := by
  intro net net' h
  induction h with
  | nil => simp [changedCount]
  | @cons p q l l' hpq h ih
 =>
    unfold changedCount at ih ⊢
    rw [List.zip_cons_cons, List.countP_cons, List.map_cons, List.filter_cons]
    obtain ⟨hk, hor⟩ := hpq
    by_cases hch : p.2 = q.2
    · have hdec : (decide ((p, q).1.2 ≠ (p, q).2.2)) = false := by
        simp [hch]
      rw [hdec]
      simp only [Bool.false_eq_true, if_false, Nat.add_zero]
      split
      · simp only [List.length_cons]
        omega
      · exact ih
    · have hmem : p.1 ∈ sample := by
        rcases hor with h1 | ⟨h1, _⟩
        · exact absurd h1 hch
        · exact h1
      have hdec : (decide ((p, q).1.2 ≠ (p, q).2.2)) = true := by
        simp [hch]
      rw [hdec, if_pos (show (true = true) from rfl),
        if_pos (show decide (p.1 ∈ sample) = true by simpa using hmem)]
      simp only [List.length_cons]
      omega

lemma filter_mem_length_le (keys sample : List (Nat × Nat)) (hnd : keys.Nodup) :
    (keys.filter (fun k => decide (k ∈ sample))).length ≤ sample.length := by
  have h1 : (keys.filter (fun k => decide (k ∈ sample))).Nodup := hnd.filter _
  have h2 : ∀ x ∈ keys.filter (fun k => decide (k ∈ sample)), x ∈ sample := by
    intro x hx
    simpa using List.of_mem_filter hx
  calc (keys.filter (fun k => decide (k ∈ sample))).length
      = (keys.filter (fun k => decide (k ∈ sample))).toFinset.card :=
        (List.toFinset_card_of_nodup h1).symm
    _ ≤ sample.toFinset.card :=
        Finset.card_le_card
          (fun x hx => List.mem_toFinset.mpr (h2 x (List.mem_toFinset.mp hx)))
    _ ≤ sample.length := sample.toFinset_card_le

/-- C7 (confirmed): after one congestion-updater tick on an N-edge network,
sampling (without replacement, hence `Nodup`) the `int(0.2*N) = N / 5` edges
the code draws, at most `⌈0.2·N⌉ = (N+4)/5` edges change level, every edge
moves at most one level, and every edge's level remains one of the four
members of `TrafficCondition`; moreover every single call of the per-edge
update rule — in particular the vehicle entry (+0.1) and exit (-0.05)
nudges — moves the level at most one step. -/
theorem C7_congestion_tick (net : CondNet) (sample : List (Nat × Nat))
    (rands : List (ℚ × ℚ))
    (hnd : sample.Nodup)
    (hkeys : (net.map Prod.fst).Nodup)
    (hlen : sample.length = net.length / 5) :
    changedCount net (update_traffic_conditions_tick net sample rands) ≤
      (net.length + 4) / 5 ∧
    List.Forall₂
      (fun p q => p.1 = q.1 ∧ (((q.2.idx : ℤ) - (p.2.idx : ℤ)).natAbs ≤ 1))
      net (update_traffic_conditions_tick net sample rands) ∧
    (∀ q ∈ update_traffic_conditions_tick net sample rands,
      q.2 = TrafficCondition.LIGHT ∨ q.2 = TrafficCondition.MODERATE ∨
      q.2 = TrafficCondition.HEAVY ∨ q.2 = TrafficCondition.CONGESTED) ∧
    (∀ (c : TrafficCondition) (f r : ℚ),
      (((update_road_traffic c f r).idx : ℤ) - (c.idx : ℤ)).natAbs ≤ 1 ∧
      (((update_road_traffic c (1/10) r).idx : ℤ) - (c.idx : ℤ)).natAbs ≤ 1 ∧
      (((update_road_traffic c (-(1/20)) r).idx : ℤ) - (c.idx : ℤ)).natAbs ≤ 1) := by
  have hrel := tick_rel sample rands net hnd
  refine ⟨?_, ?_, ?_, ?_⟩
  · have h1 := changedCount_le_filter hrel
    have h2 := filter_mem_length_le (net.map Prod.fst) sample hkeys
    have h3 : sample.length ≤ (net.length + 4) / 5 := by
      rw [hlen]; omega
    omega
  · refine hrel.imp (fun {p q} hpq => ⟨hpq.1, ?_⟩)
    rcases hpq.2 with h | ⟨_, hs⟩
    · rw [h]; simp
    · exact oneStep_idx_dist hs
  · intro q _
    cases hq : q.2 <;> simp
  · intro c f r
    exact ⟨oneStep_idx_dist (update_road_traffic_oneStep c f r),
      oneStep_idx_dist (update_road_traffic_oneStep c (1/10) r),
      oneStep_idx_dist (update_road_traffic_oneStep c (-(1/20)) r)⟩

/-- Witness for C7: a concrete 5-edge network, the size-1 sample the code
would draw (`int(0.2*5) = 1`), concrete perturbation +0.3 and random draw
0.1, with all hypotheses discharged by computation. -/
theorem C7_witness :
    changedCount netFive
        (update_traffic_conditions_tick netFive [(1, 2)] [(3/10, 1/10)]) ≤
      (netFive.length + 4) / 5 := by
  exact (C7_congestion_tick netFive [(1, 2)] [(3/10, 1/10)]
    (by decide) (by decide) (by decide)).1

/-! ## C8 / C10 — Dijkstra routing: termination, failure and soundness -/

lemma popMin_eq_none {l : List Entry} : popMin l = none ↔ l = [] := by
  cases l with
  | nil => simp [popMin]
  | cons e es =>
    simp only [popMin]
    cases h : popMin es with
    | none => simp
    | some m =>
      obtain ⟨m, rest⟩ := m
      by_cases hlt : entryLtB m e <;> simp [hlt]

lemma popMin_perm : ∀ {l : List Entry} {e : Entry} {rest : List Entry},
    popMin l = some (e, rest) → l.Perm (e :: rest) := by
  intro l
  induction l with
  | nil => intro e rest h; simp [popMin] at h
  | cons a as ih =>
    intro e rest h
    simp only [popMin] at h
    split at h
    · rename_i heq
      simp only [Option.some.injEq, Prod.mk.injEq] at h
      obtain ⟨rfl, rfl⟩ := h
      have : as = [] := popMin_eq_none.mp heq
      subst this
      exact List.Perm.refl _
    · rename_i m rr heq
      split at h
      · simp only [Option.some.injEq, Prod.mk.injEq] at h
        obtain ⟨rfl, rfl⟩ := h
        exact ((ih heq).cons a).trans (List.Perm.swap m a rr)
      · simp only [Option.some.injEq, Prod.mk.injEq] at h
        obtain ⟨rfl, rfl⟩ := h
        exact List.Perm.refl _

/-- One unfolding of `dijkstraLoop` at positive fuel. -/
lemma dijkstraLoop_succ (g : Graph) (goal : Nat) (vt : VehicleType)
    (fuel : Nat) (pq : List Entry) (visited : List Nat) :
    dijkstraLoop g goal vt (fuel + 1) pq visited =
      match popMin pq with
      | none => some none
      | some (e, rest) =>
        if e.2.1 ∈ visited then dijkstraLoop g goal vt fuel rest visited
        else if e.2.1 = goal then some (some (e.2.2 ++ [e.2.1]))
        else
          dijkstraLoop g goal vt fuel
            (rest ++ (edgesFrom g e.2.1).filterMap (fun ed =>
              if ed.2.1 ∈ (e.2.1 :: visited) then none
              else some (e.1 + travelTime vt ed.2.2, ed.2.1, e.2.2 ++ [e.2.1])))
            (e.2.1 :: visited) := rfl

lemma edgesFrom_mem {g : Graph} {u : Nat} {ed : Nat × Nat × EdgeData}
    (h : ed ∈ edgesFrom g u) : ed ∈ g.edges ∧ ed.1 = u := by
  have := List.mem_filter.mp h
  exact ⟨this.1, by simpa using this.2⟩

lemma edgeData?_isSome_of_mem {g : Graph} {ed : Nat × Nat × EdgeData}
    (h : ed ∈ g.edges) : (edgeData? g ed.1 ed.2.1).isSome = true := by
  unfold edgeData?
  cases hf : List.find? (fun e => decide (e.1 = ed.1 ∧ e.2.1 = ed.2.1)) g.edges with
  | none =>
    rw [List.find?_eq_none] at hf
    exact absurd (by simp : decide (ed.1 = ed.1 ∧ ed.2.1 = ed.2.1) = true) (by simpa using hf ed h)
  | some x => simp [hf]

lemma edgesFrom_eq_nil {g : Graph} {n : Nat} (h : n ∉ sourceFinset g) :
    edgesFrom g n = [] := by
  unfold edgesFrom
  rw [List.filter_eq_nil_iff]
  intro e he
  simp only [decide_eq_true_eq]
  intro hc
  refine h ?_
  unfold sourceFinset
  rw [List.mem_toFinset]
  exact List.mem_map.mpr ⟨e, he, hc⟩

lemma potential_fresh_source {g : Graph} {n : Nat} (visited : List Nat)
    (hS : n ∈ sourceFinset g) (hv : n ∉ visited) :
    (∑ v ∈ sourceFinset g \ (n :: visited).toFinset, (outdeg g v + 1)) + (outdeg g n + 1) =
      ∑ v ∈ sourceFinset g \ visited.toFinset, (outdeg g v + 1) := by
  rw [List.toFinset_cons, Finset.sdiff_insert]
  refine Finset.sum_erase_add _ _ ?_
  rw [Finset.mem_sdiff]
  exact ⟨hS, by simpa using hv⟩

lemma potential_fresh_nonsource {g : Graph} {n : Nat} (visited : List Nat)
    (hS : n ∉ sourceFinset g) :
    (∑ v ∈ sourceFinset g \ (n :: visited).toFinset, (outdeg g v + 1)) =
      ∑ v ∈ sourceFinset g \ visited.toFinset, (outdeg g v + 1) := by
  rw [List.toFinset_cons, Finset.sdiff_insert]
  refine Finset.sum_congr ?_ (fun _ _ => rfl)
  refine Finset.erase_eq_of_not_mem ?_
  rw [Finset.mem_sdiff]
  intro hc
  exact hS hc.1

lemma dijkstraLoop_succ_none {g : Graph} {goal : Nat} {vt : VehicleType}
    {fuel : Nat} {pq : List Entry} {visited : List Nat}
    (hp : popMin pq = none) :
    dijkstraLoop g goal vt (fuel + 1) pq visited = some none := by
  rw [dijkstraLoop_succ, hp]

lemma dijkstraLoop_succ_skip {g : Graph} {goal : Nat} {vt : VehicleType}
    {fuel : Nat} {pq : List Entry} {visited : List Nat} {e : Entry}
    {rest : List Entry}
    (hp : popMin pq = some (e, rest)) (hv : e.2.1 ∈ visited) :
    dijkstraLoop g goal vt (fuel + 1) pq visited =
      dijkstraLoop g goal vt fuel rest visited := by
  rw [dijkstraLoop_succ, hp]
  simp [hv]

lemma dijkstraLoop_succ_found {g : Graph} {goal : Nat} {vt : VehicleType}
    {fuel : Nat} {pq : List Entry} {visited : List Nat} {e : Entry}
    {rest : List Entry}
    (hp : popMin pq = some (e, rest)) (hv : e.2.1 ∉ visited) (hg : e.2.1 = goal) :
    dijkstraLoop g goal vt (fuel + 1) pq visited =
      some (some (e.2.2 ++ [e.2.1])) := by
  subst hg
  rw [dijkstraLoop_succ, hp]
  simp [hv]

lemma dijkstraLoop_succ_expand {g : Graph} {goal : Nat} {vt : VehicleType}
    {fuel : Nat} {pq : List Entry} {visited : List Nat} {e : Entry}
    {rest : List Entry}
    (hp : popMin pq = some (e, rest)) (hv : e.2.1 ∉ visited) (hg : e.2.1 ≠ goal) :
    dijkstraLoop g goal vt (fuel + 1) pq visited =
      dijkstraLoop g goal vt fuel
        (rest ++ (edgesFrom g e.2.1).filterMap (fun ed =>
          if ed.2.1 ∈ (e.2.1 :: visited) then none
          else some (e.1 + travelTime vt ed.2.2, ed.2.1, e.2.2 ++ [e.2.1])))
        (e.2.1 :: visited) := by
  rw [dijkstraLoop_succ, hp]
  simp [hv, hg]

/-- With fuel exceeding the potential, `dijkstraLoop` never runs out of
fuel: the loop terminates with a Python-level result. -/
lemma dijkstraLoop_isSome (g : Graph) (goal : Nat) (vt : VehicleType) :
    ∀ (fuel : ℕ) (pq : List Entry) (visited : List Nat),
      potential g pq visited < fuel →
      (dijkstraLoop g goal vt fuel pq visited).isSome = true := by
  intro fuel
  induction fuel with
  | zero =>
    intro pq visited hpot
    exact absurd hpot (by omega)
  | succ f ih =>
    intro pq visited hpot
    cases hp : popMin pq with
    | none => rw [dijkstraLoop_succ_none hp]; rfl
    | some er =>
      obtain ⟨e, rest⟩ := er
      have hperm := popMin_perm hp
      have hlen : pq.length = rest.length + 1 := by
        simpa using hperm.length_eq
      by_cases hv : e.2.1 ∈ visited
      · rw [dijkstraLoop_succ_skip hp hv]
        refine ih rest visited ?_
        unfold potential at hpot ⊢
        omega
      · by_cases hg : e.2.1 = goal
        · rw [dijkstraLoop_succ_found hp hv hg]; rfl
        · rw [dijkstraLoop_succ_expand hp hv hg]
          refine ih _ _ ?_
          have hpush : ((edgesFrom g e.2.1).filterMap (fun ed =>
              if ed.2.1 ∈ (e.2.1 :: visited) then none
              else some (e.1 + travelTime vt ed.2.2, ed.2.1, e.2.2 ++ [e.2.1]))).length ≤
              outdeg g e.2.1 :=
            List.length_filterMap_le _ _
          by_cases hS : e.2.1 ∈ sourceFinset g
          · have hW := potential_fresh_source visited hS hv
            unfold potential at hpot ⊢
            rw [List.length_append]
            omega
          · have hnil := edgesFrom_eq_nil hS
            have hW := potential_fresh_nonsource visited hS
            unfold potential at hpot ⊢
            rw [List.length_append, hnil]
            simp only [List.filterMap_nil, List.length_nil]
            omega

/-- When the goal is unreachable from `start` and every queue entry's node
is reachable from `start`, the loop can never return a path. -/
lemma dijkstraLoop_no_path (g : Graph) (goal : Nat) (vt : VehicleType)
    (start : Nat) (hgoal : ¬ Reach g start goal) :
    ∀ (fuel : ℕ) (pq : List Entry) (visited : List Nat),
      (∀ e ∈ pq, Reach g start e.2.1) →
      ∀ p, dijkstraLoop g goal vt fuel pq visited ≠ some (some p) := by
  intro fuel
  induction fuel with
  | zero =>
    intro pq visited _ p h
    simp [dijkstraLoop] at h
  | succ f ih =>
    intro pq visited hr p h
    cases hp : popMin pq with
    | none =>
      rw [dijkstraLoop_succ_none hp] at h
      simp at h
    | some er =>
      obtain ⟨e, rest⟩ := er
      have hperm := popMin_perm hp
      have hre : Reach g start e.2.1 :=
        hr e (hperm.symm.subset (List.mem_cons_self _ _))
      by_cases hv : e.2.1 ∈ visited
      · rw [dijkstraLoop_succ_skip hp hv] at h
        exact ih rest visited
          (fun x hx => hr x (hperm.symm.subset (List.mem_cons_of_mem _ hx))) p h
      · by_cases hg : e.2.1 = goal
        · exact hgoal (hg ▸ hre)
        · rw [dijkstraLoop_succ_expand hp hv hg] at h
          refine ih _ _ ?_ p h
          intro x hx
          rcases List.mem_append.mp hx with hx | hx
          · exact hr x (hperm.symm.subset (List.mem_cons_of_mem _ hx))
          · obtain ⟨ed, hed, hedx⟩ := List.mem_filterMap.mp hx
            obtain ⟨hedmem, hedfst⟩ := edgesFrom_mem hed
            split at hedx
            · cases hedx
            · obtain rfl : (e.1 + travelTime vt ed.2.2, ed.2.1, e.2.2 ++ [e.2.1]) = x := by
                simpa using hedx
              refine Relation.ReflTransGen.tail hre ?_
              have hsome := edgeData?_isSome_of_mem hedmem
              rw [hedfst] at hsome
              exact hsome

/-- Every result the loop returns is a well-formed path, provided all queue
entries satisfy the loop invariant. -/
lemma dijkstraLoop_sound (g : Graph) (goal : Nat) (vt : VehicleType)
    (start : Nat) :
    ∀ (fuel : ℕ) (pq : List Entry) (visited : List Nat) (p : List Nat),
      (∀ e ∈ pq, EntryInv g start visited e) →
      dijkstraLoop g goal vt fuel pq visited = some (some p) →
      WFPath g start goal p := by
  intro fuel
  induction fuel with
  | zero =>
    intro pq visited p _ h
    simp [dijkstraLoop] at h
  | succ f ih =>
    intro pq visited p hinv h
    cases hp : popMin pq with
    | none =>
      rw [dijkstraLoop_succ_none hp] at h
      simp at h
    | some er =>
      obtain ⟨e, rest⟩ := er
      have hperm := popMin_perm hp
      have hie : EntryInv g start visited e :=
        hinv e (hperm.symm.subset (List.mem_cons_self _ _))
      by_cases hv : e.2.1 ∈ visited
      · rw [dijkstraLoop_succ_skip hp hv] at h
        exact ih rest visited p
          (fun x hx => hinv x (hperm.symm.subset (List.mem_cons_of_mem _ hx))) h
      · by_cases hg : e.2.1 = goal
        · rw [dijkstraLoop_succ_found hp hv hg] at h
          obtain rfl : e.2.2 ++ [e.2.1] = p := by simpa using h
          obtain ⟨h1, h2, h3, _⟩ := hie
          exact ⟨by simp, h1, by rw [← hg]; exact List.getLast?_concat _, h2, h3⟩
        · rw [dijkstraLoop_succ_expand hp hv hg] at h
          refine ih _ _ p ?_ h
          intro x hx
          rcases List.mem_append.mp hx with hx | hx
          · have hold := hinv x (hperm.symm.subset (List.mem_cons_of_mem _ hx))
            exact ⟨hold.1, hold.2.1, hold.2.2.1,
              fun y hy => List.mem_cons_of_mem _ (hold.2.2.2 y hy)⟩
          · obtain ⟨ed, hed, hedx⟩ := List.mem_filterMap.mp hx
            obtain ⟨hedmem, hedfst⟩ := edgesFrom_mem hed
            split at hedx
            · cases hedx
            · rename_i hnb
              obtain rfl : (e.1 + travelTime vt ed.2.2, ed.2.1, e.2.2 ++ [e.2.1]) = x := by
                simpa using hedx
              obtain ⟨h1, h2, h3, h4⟩ := hie
              have hnbv : ed.2.1 ∉ (e.2.1 :: visited) := hnb
              have hnbne : ed.2.1 ≠ e.2.1 := fun hc =>
                hnbv (hc ▸ List.mem_cons_self _ _)
              have hnbvis : ed.2.1 ∉ visited := fun hc =>
                hnbv (List.mem_cons_of_mem _ hc)
              have hnbP : ed.2.1 ∉ e.2.2 ++ [e.2.1] := by
                intro hc
                rcases List.mem_append.mp hc with hc | hc
                · exact hnbvis (h4 _ hc)
                · exact hnbne (by simpa using hc)
              refine ⟨?_, ?_, ?_, ?_⟩
              · show ((e.2.2 ++ [e.2.1]) ++ [ed.2.1]).head? = some start
                rw [List.head?_append]
                rw [h1]
                rfl
              · show ((e.2.2 ++ [e.2.1]) ++ [ed.2.1]).Nodup
                rw [List.nodup_append]
                refine ⟨h2, List.nodup_singleton _, ?_⟩
                intro y hy hy1
                rw [List.mem_singleton] at hy1
                exact hnbP (hy1 ▸ hy)
              · show List.Chain' (fun u v => (edgeData? g u v).isSome)
                  ((e.2.2 ++ [e.2.1]) ++ [ed.2.1])
                rw [List.chain'_append]
                refine ⟨h3, List.chain'_singleton _, ?_⟩
                intro x hx y hy
                rw [List.getLast?_concat] at hx
                simp only [List.head?_cons, Option.mem_def, Option.some.injEq] at hx hy
                subst hx
                subst hy
                have hsome := edgeData?_isSome_of_mem hedmem
                rw [hedfst] at hsome
                exact hsome
              · show ∀ y ∈ e.2.2 ++ [e.2.1], y ∈ e.2.1 :: visited
                intro y hy
                rcases List.mem_append.mp hy with hy | hy
                · exact List.mem_cons_of_mem _ (h4 _ hy)
                · rw [List.mem_singleton] at hy
                  exact hy ▸ List.mem_cons_self _ _

/-- C8 (confirmed): whenever the goal is not reachable from the start along
directed edges, the router's loop terminates by emptying its queue (the
Python `return None` of line 216, never a fuel-out and never a partial
path), and `find_shortest_path` returns `none`.  In particular a node with
no incoming edges is unreachable from any other node, so every query ending
there returns `none`. -/
theorem C8_unreachable_returns_none (g : Graph) (start goal : Nat)
    (vt : VehicleType) (h : ¬ Reach g start goal) :
    dijkstraLoop g goal vt (fuelBound g) [(0, start, [])] [] = some none ∧
    find_shortest_path g start goal vt = none := by
  have hne : start ≠ goal := fun hc => h (hc ▸ Relation.ReflTransGen.refl)
  have hpot : potential g [(0, start, [])] [] < fuelBound g := by
    unfold potential fuelBound
    simp
  have hterm := dijkstraLoop_isSome g goal vt (fuelBound g) [(0, start, [])] [] hpot
  have hreach : ∀ e ∈ ([(((0 : ℚ), start, ([] : List Nat)))] : List Entry),
      Reach g start e.2.1 := by
    intro e he
    rw [List.mem_singleton] at he
    subst he
    exact Relation.ReflTransGen.refl
  have hnp := dijkstraLoop_no_path g goal vt start h (fuelBound g)
    [(0, start, [])] [] hreach
  cases hres : dijkstraLoop g goal vt (fuelBound g) [(0, start, [])] [] with
  | none => rw [hres] at hterm; simp at hterm
  | some r =>
    cases r with
    | none =>
      refine ⟨rfl, ?_⟩
      unfold find_shortest_path
      rw [if_neg hne, hres]
    | some p => exact absurd hres (hnp p)

/-- Witness for C8: in the edgeless network, node 1 is unreachable from
node 0, and the router returns `none`. -/
theorem C8_witness_empty_graph :
    find_shortest_path gEmpty 0 1 VehicleType.CAR = none := by
  refine (C8_unreachable_returns_none gEmpty 0 1 VehicleType.CAR ?_).2
  intro h
  rcases Relation.ReflTransGen.cases_head h with heq | ⟨c, hr, _⟩
  · exact absurd heq (by decide)
  · simp [edgeData?, gEmpty] at hr

/-- C10 (confirmed): every non-`none` result of `find_shortest_path` is a
non-empty node sequence that begins at `start`, ends at `goal`, has
pairwise-distinct nodes (hence pairwise-distinct interior nodes), and whose
every consecutive pair is a directed edge present in the network. -/
theorem C10_returned_path_wellformed (g : Graph) (start goal : Nat)
    (vt : VehicleType) (p : List Nat)
    (h : find_shortest_path g start goal vt = some p) :
    WFPath g start goal p := by
  unfold find_shortest_path at h
  by_cases hsg : start = goal
  · rw [if_pos hsg] at h
    obtain rfl : [start] = p := by simpa using h
    subst hsg
    exact ⟨by simp, rfl, rfl, List.nodup_singleton _, List.chain'_singleton _⟩
  · rw [if_neg hsg] at h
    cases hres : dijkstraLoop g goal vt (fuelBound g) [(0, start, [])] [] with
    | none => rw [hres] at h; simp at h
    | some r =>
      rw [hres] at h
      have h2 : r = some p := h
      refine dijkstraLoop_sound g goal vt start (fuelBound g) _ _ p ?_
        (by rw [hres, h2])
      intro e he
      rw [List.mem_singleton] at he
      subst he
      exact ⟨rfl, List.nodup_singleton _, List.chain'_singleton _, by simp⟩

/-- Witness for C10: on the one-edge network the router finds `[0, 1]`,
which is a well-formed path from 0 to 1. -/
theorem C10_witness :
    WFPath gOneEdge 0 1 [0, 1] :=
  C10_returned_path_wellformed gOneEdge 0 1 VehicleType.CAR [0, 1] (by decide)

/- Batteries seals the rational-number operations `@[irreducible]`; the
concrete-network evaluations below need them to reduce. -/
set_option allowUnsafeReducibility true
attribute [local semireducible] Rat.add Rat.mul Rat.inv Rat.sub

/-- C2 (code bug): a mid-trip reroute does NOT resume from the current
node.  In the scenario `gReroute` the vehicle (a car from 0 to 3 on route
[0,1,2,3]) is at node u = 1 when the check fires: `consider_rerouting`
splices correctly — visited [0] unchanged, u spliced exactly once,
giving [0,1,4,3] — but `drive` then re-invokes itself (line 95) and the
restarted `drive` calls `plan_route` (line 79), replanning from the
ORIGINAL start; its loop restarts at index 0 (line 85), so the next node
traversed is `route[0] = 0`, the trip's origin, not u = 1: the already
driven edge 0→1 is traversed (and its travel time accumulated) again. -/
theorem C2_reroute_restarts_from_origin :
    consider_rerouting gReroute VehicleType.CAR [0, 1, 2, 3] 1 3 =
      some [0, 1, 4, 3] ∧
    reroute_and_restart gReroute ⟨0, 3, VehicleType.CAR, [0, 1, 2, 3], 1⟩ 1 =
      some ⟨0, 3, VehicleType.CAR, [0, 1, 4, 3], 0⟩ ∧
    (VehicleState.mk 0 3 VehicleType.CAR [0, 1, 4, 3] 0).currentNode = some 0 ∧
    (0 : Nat) ≠ 1 :=
  ⟨by decide, by decide, rfl, by decide⟩

/-- C4 (code bug): for a vehicle whose destination is disconnected from its
origin the router does return `NONE`, but `plan_route` then evaluates
`' -> '.join(self.route)` with `self.route = None` (line 44), raising
TypeError BEFORE `drive`'s `if not self.route` guard (line 81) can turn the
trip into a quiet failure: the exception escapes the planning step. -/
theorem C4_disconnected_plan_route_raises :
    find_shortest_path gNoRoute 0 1 VehicleType.CAR = none ∧
    plan_route gNoRoute 0 1 VehicleType.CAR =
      Except.error PyError.TypeError := by
  constructor
  · decide
  · unfold plan_route
    rw [show find_shortest_path gNoRoute 0 1 VehicleType.CAR = none by decide]

end TrafficSim
